import Mathlib

/-!
# Verification of the oganesson evolutionary structure-search engine

The repository exposes its genetic-algorithm subsystem (`oganesson.genetic_algorithms.GA`)
only through its call surface in the tutorial notebook; the component bodies
(StructureModel, RandomStructureGenerator, SimilarityOracle, GeneticOperators,
FitnessEvaluator, PopulationManager, EvolutionController) are specified in the
design document.  Every definition below is therefore modelled from the spec,
and each theorem settles one specified property of the modelled engine.
-/

namespace Oganesson

/-- Modelled from the spec: a 3-vector of rational coordinates (the body of
`StructureModel`, absent from the repository snapshot, stores fractional
coordinates as triples). -/
abbrev V3 : Type := Fin 3 → ℚ

/-- Modelled from the spec (§3 Data model, `StructureModel`, absent from the
repository snapshot): a 3×3 lattice matrix, a matched sequence of species
labels and fractional coordinates (stored here as pairs), and per-axis
periodicity flags.  An immutable value; operators produce new instances. -/
structure StructureModel where
  lattice : Matrix (Fin 3) (Fin 3) ℚ
  atoms : List (ℕ × V3)
  pbc : Fin 3 → Bool
deriving DecidableEq

/-- Modelled from the spec: the composition of a structure is the multiset of
its chemical species labels. -/
def composition (s : StructureModel) : Multiset ℕ :=
  ↑(s.atoms.map Prod.fst)

/-- Modelled from the spec: the Cartesian position of a fractional coordinate,
the row vector of fractional coordinates times the lattice matrix. -/
def cartPos (L : Matrix (Fin 3) (Fin 3) ℚ) (v : V3) : V3 :=
  Matrix.vecMul v L

/-- Modelled from the spec: squared Euclidean distance between two Cartesian
positions (kept squared so that everything stays rational). -/
def distSq (u v : V3) : ℚ :=
  Matrix.dotProduct (u - v) (u - v)

/-- One fingerprint entry: the (sorted) species pair together with the squared
interatomic distance of one atom pair. -/
abbrev Entry : Type := ℕ × ℕ × ℚ

/-- Modelled from the spec (§4.4 SimilarityOracle, absent from the repository
snapshot): the symmetric signature contributed by one unordered atom pair. -/
def pairFun (L : Matrix (Fin 3) (Fin 3) ℚ) (a b : ℕ × V3) : Entry :=
  (min a.1 b.1, max a.1 b.1, distSq (cartPos L a.2) (cartPos L b.2))

/-- The fingerprint entry of an unordered atom pair. -/
def entryOfPair (L : Matrix (Fin 3) (Fin 3) ℚ) : Sym2 (ℕ × V3) → Entry :=
  Sym2.lift ⟨pairFun L, fun a b => by
    unfold pairFun
    rw [min_comm, max_comm]
    have h : distSq (cartPos L a.2) (cartPos L b.2) =
        distSq (cartPos L b.2) (cartPos L a.2) := by
      unfold distSq
      have hneg : cartPos L b.2 - cartPos L a.2 =
          -(cartPos L a.2 - cartPos L b.2) := by ring
      rw [hneg, Matrix.dotProduct_neg, Matrix.neg_dotProduct, neg_neg]
    rw [h]⟩

/-- Modelled from the spec: the translation-, rotation-, and atom-permutation-
invariant fingerprint of a structure — the multiset of per-species-pair squared
interatomic distances over all unordered atom pairs. -/
def fingerprint (s : StructureModel) : Multiset Entry :=
  ↑(s.atoms.sym2.map (entryOfPair s.lattice))

/-- Lexicographic order used to lay the fingerprint out as a sorted signature. -/
def entryLE (a b : Entry) : Prop :=
  a.1 < b.1 ∨ (a.1 = b.1 ∧ (a.2.1 < b.2.1 ∨ (a.2.1 = b.2.1 ∧ a.2.2 ≤ b.2.2)))

instance : DecidableRel entryLE := fun a b => by
  unfold entryLE
  exact inferInstance

instance : IsTrans Entry entryLE := by
  constructor
  intro a b c hab hbc
  unfold entryLE at *
  rcases hab with h1 | ⟨e1, h1⟩
  · rcases hbc with h2 | ⟨e2, _⟩
    · exact Or.inl (h1.trans h2)
    · exact Or.inl (e2 ▸ h1)
  · rcases hbc with h2 | ⟨e2, h2⟩
    · exact Or.inl (e1 ▸ h2)
    · refine Or.inr ⟨e1.trans e2, ?_⟩
      rcases h1 with h1 | ⟨f1, h1⟩
      · rcases h2 with h2 | ⟨f2, _⟩
        · exact Or.inl (h1.trans h2)
        · exact Or.inl (f2 ▸ h1)
      · rcases h2 with h2 | ⟨f2, h2⟩
        · exact Or.inl (f1 ▸ h2)
        · exact Or.inr ⟨f1.trans f2, h1.trans h2⟩

instance : IsAntisymm Entry entryLE := by
  constructor
  intro a b hab hba
  unfold entryLE at *
  obtain ⟨a1, a2, a3⟩ := a
  obtain ⟨b1, b2, b3⟩ := b
  simp only at hab hba
  rcases hab with h1 | ⟨e1, h1⟩
  · rcases hba with h2 | ⟨e2, _⟩
    · omega
    · omega
  · rcases hba with h2 | ⟨e2, h2⟩
    · omega
    · rcases h1 with h1 | ⟨f1, h1⟩
      · rcases h2 with h2 | ⟨f2, _⟩
        · omega
        · omega
      · rcases h2 with h2 | ⟨f2, h2⟩
        · omega
        · subst e1; subst f1
          exact congrArg _ (congrArg _ (le_antisymm h1 h2))

instance : IsTotal Entry entryLE := by
  constructor
  intro a b
  unfold entryLE
  rcases Nat.lt_trichotomy a.1 b.1 with h | h | h
  · exact Or.inl (Or.inl h)
  · rcases Nat.lt_trichotomy a.2.1 b.2.1 with g | g | g
    · exact Or.inl (Or.inr ⟨h, Or.inl g⟩)
    · rcases le_total a.2.2 b.2.2 with q | q
      · exact Or.inl (Or.inr ⟨h, Or.inr ⟨g, q⟩⟩)
      · exact Or.inr (Or.inr ⟨h.symm, Or.inr ⟨g.symm, q⟩⟩)
    · exact Or.inr (Or.inr ⟨h.symm, Or.inl g⟩)
  · exact Or.inr (Or.inl h)

/-- Modelled from the spec: the sorted interatomic-distance signature. -/
def signature (s : StructureModel) : List Entry :=
  Multiset.sort entryLE (fingerprint s)

/-- Modelled from the spec: entrywise comparison of two sorted signatures
within `tol` — species pairs must agree exactly, squared distances within
tolerance, and the signatures must have equal length. -/
def entriesClose (tol : ℚ) : List Entry → List Entry → Bool
  | [], [] => true
  | a :: t1, b :: t2 =>
      (decide (a.1 = b.1) && decide (a.2.1 = b.2.1) &&
        decide (|a.2.2 - b.2.2| ≤ tol)) && entriesClose tol t1 t2
  | _, _ => false

/-- Modelled from the spec (§4.4, absent from the repository snapshot):
`are_equivalent` compares the two sorted fingerprints within `tolerance`. -/
def are_equivalent (s1 s2 : StructureModel) (tolerance : ℚ) : Bool :=
  entriesClose tolerance (signature s1) (signature s2)

/-- Modelled from the spec: uniform translation of all (fractional)
coordinates of a structure by a fixed vector. -/
def translateStructure (s : StructureModel) (t : V3) : StructureModel :=
  { s with atoms := s.atoms.map (fun a => (a.1, a.2 + t)) }

/-- Modelled from the spec: a rigid rotation applied jointly to the lattice
and (hence to the Cartesian image of) the coordinates: the lattice is
multiplied on the right by an orthogonal matrix. -/
def rotateStructure (s : StructureModel) (R : Matrix (Fin 3) (Fin 3) ℚ) :
    StructureModel :=
  { s with lattice := s.lattice * R }

/-- Modelled from the spec: reordering the atom listing of a structure. -/
def reorderStructure (s : StructureModel) (l : List (ℕ × V3)) : StructureModel :=
  { s with atoms := l }

/-- Modelled from the spec (§9: explicit random-state objects passed into
every stochastic operation): a linear-congruential pseudo-random step. -/
def rngNext (s : ℕ) : ℕ :=
  (s * 1103515245 + 12345) % 2147483648

/-- A pseudo-random rational in `[0, 1)` drawn from an rng state. -/
def rngUnit (s : ℕ) : ℚ :=
  mkRat (rngNext s % 1000) 1000

/-- Modelled from the spec (§7 Error handling design): the error kinds the
engine can surface. -/
inductive GAError where
  | generationError
  | evaluationFailure
  | compositionMismatch
deriving DecidableEq

/-- Modelled from the spec: check that one atom keeps at least the configured
minimum (squared) distance, per species pair, from another. -/
def minDistOK (minSq : ℕ → ℕ → ℚ) (L : Matrix (Fin 3) (Fin 3) ℚ)
    (a b : ℕ × V3) : Bool :=
  decide (minSq a.1 b.1 ≤ distSq (cartPos L a.2) (cartPos L b.2))

/-- All unordered pairs of distinct atoms keep the minimum distance. -/
def allPairsFar (minSq : ℕ → ℕ → ℚ) (L : Matrix (Fin 3) (Fin 3) ℚ) :
    List (ℕ × V3) → Bool
  | [] => true
  | a :: t => t.all (fun b => minDistOK minSq L a b) && allPairsFar minSq L t

/-- Modelled from the spec (§3): the minimum pairwise interatomic distance
invariant a structure must satisfy to be physically valid. -/
def isPhysicallyValid (minSq : ℕ → ℕ → ℚ) (s : StructureModel) : Bool :=
  allPairsFar minSq s.lattice s.atoms

/-- Modelled from the spec (§4.2 RandomStructureGenerator, absent from the
repository snapshot): one random placement attempt — atoms of the required
species at pseudo-random fractional coordinates in a lattice sized by
`bound`. -/
def proposeStructure (speciesList : List ℕ) (bound : ℚ) (seed : ℕ) :
    StructureModel :=
  { lattice := bound • (1 : Matrix (Fin 3) (Fin 3) ℚ)
    atoms := speciesList.enum.map
      (fun p => (p.2, fun i => rngUnit (rngNext^[3 * p.1 + i.val] seed)))
    pbc := fun _ => true }

namespace RandomStructureGenerator

/-- Modelled from the spec (§4.2, absent from the repository snapshot):
`generate` retries random placements that violate the minimum-distance
invariant, and fails with `GenerationError` when the bounded number of
attempts (`fuel`) is used up. -/
def generate (minSq : ℕ → ℕ → ℚ) (speciesList : List ℕ) (bound : ℚ) :
    ℕ → ℕ → Except GAError StructureModel
  | 0, _ => .error .generationError
  | fuel + 1, seed =>
      let c := proposeStructure speciesList bound seed
      if isPhysicallyValid minSq c then .ok c
      else generate minSq speciesList bound fuel (rngNext seed)

end RandomStructureGenerator

/-- Modelled from the spec (§4.3): mutation mode 1 — bounded random
displacement of the atoms. -/
def displaceAtoms (s : StructureModel) (seed : ℕ) : StructureModel :=
  { s with
    atoms := s.atoms.enum.map
      (fun p => (p.2.1,
        fun i => p.2.2 i + rngUnit (rngNext^[3 * p.1 + i.val] seed) / 10)) }

/-- Modelled from the spec (§4.3): mutation mode 2 — a composition-preserving
species swap between two atoms. -/
def swapSpecies (s : StructureModel) (seed : ℕ) : StructureModel :=
  match s.atoms with
  | [] => s
  | a0 :: _ =>
      let n := s.atoms.length
      let i := seed % n
      let j := rngNext seed % n
      let ai := s.atoms.getD i a0
      let aj := s.atoms.getD j a0
      { s with atoms := (s.atoms.set i (aj.1, ai.2)).set j (ai.1, aj.2) }

/-- Modelled from the spec (§4.3): mutation mode 3 — a small random lattice
strain. -/
def strainLattice (s : StructureModel) (seed : ℕ) : StructureModel :=
  { s with lattice := (1 + rngUnit seed / 100) • s.lattice }

/-- Modelled from the spec (§4.3 GeneticOperators, absent from the repository
snapshot): `mutate` applies one of the three modes, chosen pseudo-randomly. -/
def mutate (s : StructureModel) (seed : ℕ) : StructureModel :=
  match seed % 3 with
  | 0 => displaceAtoms s (rngNext seed)
  | 1 => swapSpecies s (rngNext seed)
  | _ => strainLattice s (rngNext seed)

/-- Composition of a bare atom list. -/
def listComposition (atoms : List (ℕ × V3)) : Multiset ℕ :=
  ↑(atoms.map Prod.fst)

/-- Modelled from the spec (§4.3): the raw cut-and-combine step of crossover —
a random cutting plane through the shared lattice, atoms of parent A on one
side and of parent B on the other. -/
def cutChild (A B : StructureModel) (seed : ℕ) : List (ℕ × V3) :=
  let cut := rngUnit seed
  A.atoms.filter (fun a => decide (a.2 0 < cut)) ++
    B.atoms.filter (fun a => decide (cut ≤ a.2 0))

/-- Whether the species counts of `atoms` agree with `target` exactly
(checked by counting, so that the test is executable by plain recursion). -/
def sameComposition (atoms : List (ℕ × V3)) (target : List ℕ) : Bool :=
  (atoms.map Prod.fst).all
      (fun sp => decide ((atoms.map Prod.fst).count sp = target.count sp)) &&
    target.all
      (fun sp => decide ((atoms.map Prod.fst).count sp = target.count sp))

/-- First species whose count in `atoms` exceeds its count in `target`. -/
def overSpecies (target : List ℕ) (atoms : List (ℕ × V3)) : Option ℕ :=
  (atoms.map Prod.fst).find?
    (fun sp => decide (target.count sp < (atoms.map Prod.fst).count sp))

/-- Remove one atom of the given species (the first encountered). -/
def removeOne (sp : ℕ) : List (ℕ × V3) → List (ℕ × V3)
  | [] => []
  | a :: t => if a.1 = sp then t else a :: removeOne sp t

/-- First species whose count in `atoms` falls short of its count in
`target`. -/
def missingSpecies (target : List ℕ) (atoms : List (ℕ × V3)) : Option ℕ :=
  target.find?
    (fun sp => decide ((atoms.map Prod.fst).count sp < target.count sp))

/-- Modelled from the spec (§4.3): reconciliation of the species counts of a
raw crossover child with the target composition, by removing surplus atoms
and adding missing ones, within a bounded number (`fuel`) of corrective
attempts; `none` models a `CompositionMismatch` after bounded retries. -/
def reconcile (target : List ℕ) (newPos : ℕ → V3) :
    ℕ → List (ℕ × V3) → Option (List (ℕ × V3))
  | 0, atoms => if sameComposition atoms target then some atoms else none
  | fuel + 1, atoms =>
      if sameComposition atoms target then some atoms
      else
        match overSpecies target atoms with
        | some sp => reconcile target newPos fuel (removeOne sp atoms)
        | none =>
            match missingSpecies target atoms with
            | some sp => reconcile target newPos fuel ((sp, newPos fuel) :: atoms)
            | none => none

/-- Number of corrective attempts allowed during reconciliation. -/
def reconcileFuel : ℕ := 8

/-- Modelled from the spec (§4.3): the reconciling part of crossover; `none`
models the case in which reconciliation cannot reach the target composition
within the bounded number of corrective attempts. -/
def tryCrossover (target : List ℕ) (A B : StructureModel) (seed : ℕ) :
    Option StructureModel :=
  (reconcile target (fun k i => rngUnit (rngNext^[k + i.val] seed)) reconcileFuel
      (cutChild A B seed)).map
    (fun atoms => { lattice := A.lattice, atoms := atoms, pbc := A.pbc })

/-- Modelled from the spec (§4.3, §7): `crossover` falls back to returning a
mutation of parent A when reconciliation fails; a `CompositionMismatch` is
recovered locally and never surfaced. -/
def crossover (target : List ℕ) (A B : StructureModel) (seed : ℕ) :
    Except GAError StructureModel :=
  match tryCrossover target A B seed with
  | some c => .ok c
  | none => .ok (mutate A seed)

/-- Modelled from the spec (§6): the outcome of the external
relaxation/energy oracle `relax(structure, max_iterations, tolerance)`. -/
inductive RelaxOutcome where
  | done (energy : ℚ) (converged : Bool) (iterationsUsed : ℕ)
  | reject

/-- The external oracle interface (the sole physics dependency). -/
abbrev RelaxOracle := StructureModel → ℕ → ℚ → RelaxOutcome

/-- Modelled from the spec (§4.5 FitnessEvaluator, absent from the repository
snapshot): `evaluate` normalizes the oracle outcome — the best energy obtained
is returned with its convergence flag even when convergence was not reached,
and only an outright rejection surfaces as `EvaluationFailure`. -/
def evaluate (relax : RelaxOracle) (maxIter : ℕ) (tol : ℚ)
    (s : StructureModel) : Except GAError (ℚ × Bool) :=
  match relax s maxIter tol with
  | .done e c _ => .ok (e, c)
  | .reject => .error .evaluationFailure

/-- Modelled from the spec (§3 Data model, `Candidate`, absent from the
repository snapshot): a structure with its fitness, convergence flag,
creating generation and unique identifier. -/
structure Candidate where
  struct : StructureModel
  fitness : ℚ
  converged : Bool
  generation : ℕ
  id : ℕ
deriving DecidableEq

/-- Modelled from the spec (§7): the fitness used for selection ranking — a
non-convergent candidate is penalized by a configured amount. -/
def rankFitness (penalty : ℚ) (c : Candidate) : ℚ :=
  c.fitness + (if c.converged then 0 else penalty)

/-- Equivalence of two candidates, via the SimilarityOracle. -/
def equivCand (tol : ℚ) (a b : Candidate) : Bool :=
  are_equivalent a.struct b.struct tol

/-- `c` is equivalent to no member of `pop`. -/
def notEquivAll (tol : ℚ) (c : Candidate) (pop : List Candidate) : Bool :=
  pop.all (fun m => ! equivCand tol c m)

/-- Index and fitness of the worst (highest-fitness) member, if any. -/
def worstIdx : List Candidate → Option (ℕ × ℚ)
  | [] => none
  | c :: t =>
      match worstIdx t with
      | none => some (0, c.fitness)
      | some (i, f) =>
          if c.fitness < f then some (i + 1, f) else some (0, c.fitness)

/-- Modelled from the spec (§4.6 PopulationManager, absent from the
repository snapshot): `insert_candidate`.  With spare capacity and no
equivalent member, append; otherwise replace the worst member only when the
candidate is strictly better and equivalent to no other surviving member;
ties favor the existing member. -/
def insert_candidate (tol : ℚ) (cap : ℕ) (pop : List Candidate)
    (c : Candidate) : List Candidate :=
  if pop.length < cap ∧ notEquivAll tol c pop = true then pop ++ [c]
  else
    match worstIdx pop with
    | none => pop
    | some (i, f) =>
        if c.fitness < f ∧ notEquivAll tol c (pop.eraseIdx i) = true then
          pop.eraseIdx i ++ [c]
        else pop

/-- Modelled from the spec: the best (lowest) fitness in a population. -/
def bestFitness : List Candidate → Option ℚ
  | [] => none
  | c :: t =>
      match bestFitness t with
      | none => some c.fitness
      | some b => some (min c.fitness b)

/-- The diversity invariant: no two members are mutually equivalent. -/
def PairwiseNE (tol : ℚ) (pop : List Candidate) : Prop :=
  List.Pairwise (fun a b => equivCand tol a b = false) pop

/-- Modelled from the spec (§6 External interfaces): the recognized options of
an evolutionary run. -/
structure GAConfig where
  population_size : ℕ
  num_offsprings : ℕ
  similarity_tolerance : ℚ
  nonconverged_penalty : ℚ
  p_mutate : ℚ
  max_generations : ℕ
  stagnation_generations : ℕ
  failure_tolerance : ℕ
  improvement_threshold : ℚ
  max_relaxation_iterations : ℕ
  convergence_energy_tolerance : ℚ
  target_composition : List ℕ

/-- Modelled from the spec (§3, §4.7): the mutable state of one evolutionary
run — population, generation counter, stagnation count, error count of the
last `evolve()` call, next fresh candidate id, and rng state. -/
structure RunState where
  pop : List Candidate
  gen : ℕ
  stagnation : ℕ
  lastFailures : ℕ
  nextId : ℕ
  seed : ℕ

/-- Fallback candidate used only for total indexing of nonempty lists. -/
def dummyCandidate : Candidate :=
  { struct := { lattice := 1, atoms := [], pbc := fun _ => true }
    fitness := 0
    converged := true
    generation := 0
    id := 0 }

/-- Modelled from the spec (§4.6): tournament parent selection — two
pseudo-random members compete and the better (penalized) rank fitness wins. -/
def pickParent (penalty : ℚ) (pop : List Candidate) (seed : ℕ) : Candidate :=
  let a := pop.getD (seed % pop.length) dummyCandidate
  let b := pop.getD (rngNext seed % pop.length) dummyCandidate
  if rankFitness penalty a ≤ rankFitness penalty b then a else b

/-- Modelled from the spec (§4.6): `select_parents` draws the two parents of
one crossover. -/
def select_parents (penalty : ℚ) (pop : List Candidate) (seed : ℕ) :
    Candidate × Candidate :=
  (pickParent penalty pop seed, pickParent penalty pop (rngNext (rngNext seed)))

/-- Modelled from the spec (§4.7): one offspring structure — crossover of two
selected parents, optionally mutated with probability `p_mutate`. -/
def childStructure (cfg : GAConfig) (st : RunState) (k : ℕ) : StructureModel :=
  let seed := rngNext^[k + 1] st.seed
  let ps := select_parents cfg.nonconverged_penalty st.pop seed
  let child0 :=
    match crossover cfg.target_composition ps.1.struct ps.2.struct seed with
    | .ok c => c
    | .error _ => mutate ps.1.struct seed
  if rngUnit seed < cfg.p_mutate then mutate child0 (rngNext seed) else child0

/-- Evaluate one offspring structure, pairing it with its fitness outcome. -/
def evalChild (cfg : GAConfig) (relax : RelaxOracle) (s : StructureModel) :
    Except GAError (StructureModel × ℚ × Bool) :=
  match evaluate relax cfg.max_relaxation_iterations
      cfg.convergence_energy_tolerance s with
  | .ok p => .ok (s, p.1, p.2)
  | .error e => .error e

/-- Modelled from the spec (§4.7): production and evaluation of the `k`-th
child of one `evolve()` call. -/
def makeChild (cfg : GAConfig) (relax : RelaxOracle) (st : RunState) (k : ℕ) :
    Except GAError (StructureModel × ℚ × Bool) :=
  if st.pop = [] then .error .generationError
  else evalChild cfg relax (childStructure cfg st k)

/-- Modelled from the spec (§4.7, §7): processing of one evaluated child —
an `EvaluationFailure` is counted and the candidate excluded from insertion,
otherwise the candidate is handed to `insert_candidate`.  The accumulator is
`(population, failure count, next id)`. -/
def applyChild (cfg : GAConfig) (gen : ℕ)
    (acc : List Candidate × ℕ × ℕ)
    (res : Except GAError (StructureModel × ℚ × Bool)) :
    List Candidate × ℕ × ℕ :=
  match res with
  | .error _ => (acc.1, acc.2.1 + 1, acc.2.2)
  | .ok r =>
      (insert_candidate cfg.similarity_tolerance cfg.population_size acc.1
        { struct := r.1
          fitness := r.2.1
          converged := r.2.2
          generation := gen
          id := acc.2.2 },
        acc.2.1, acc.2.2 + 1)

/-- The population, failure count and next id after one batch of `n`
offsprings. -/
def offspringResults (cfg : GAConfig) (relax : RelaxOracle) (st : RunState)
    (n : ℕ) : List Candidate × ℕ × ℕ :=
  ((List.range n).map (makeChild cfg relax st)).foldl (applyChild cfg st.gen)
    (st.pop, 0, st.nextId)

/-- Whether the new population's best fitness improved beyond the threshold. -/
def improvedFlag (threshold : ℚ) (oldPop newPop : List Candidate) : Bool :=
  match bestFitness oldPop, bestFitness newPop with
  | some b1, some b2 => decide (b2 < b1 - threshold)
  | none, some _ => true
  | _, _ => false

/-- Modelled from the spec (§4.7 EvolutionController, absent from the
repository snapshot): one `evolve()` call — produce, evaluate and insert
`num_offsprings` children (defaulting to the configured count), then advance
the generation counter by one and update the stagnation and failure
bookkeeping. -/
def evolve (cfg : GAConfig) (relax : RelaxOracle) (st : RunState)
    (num_offsprings : Option ℕ) : RunState :=
  { pop := (offspringResults cfg relax st (num_offsprings.getD cfg.num_offsprings)).1
    gen := st.gen + 1
    stagnation :=
      if improvedFlag cfg.improvement_threshold st.pop
          (offspringResults cfg relax st (num_offsprings.getD cfg.num_offsprings)).1
      then 0 else st.stagnation + 1
    lastFailures :=
      (offspringResults cfg relax st (num_offsprings.getD cfg.num_offsprings)).2.1
    nextId :=
      (offspringResults cfg relax st (num_offsprings.getD cfg.num_offsprings)).2.2
    seed := rngNext^[num_offsprings.getD cfg.num_offsprings + 1] st.seed }

/-- A whole sequence of `evolve()` calls. -/
def applyEvolves (cfg : GAConfig) (relax : RelaxOracle)
    (nums : List (Option ℕ)) (st : RunState) : RunState :=
  nums.foldl (fun s nm => evolve cfg relax s nm) st

/-- Modelled from the spec (§4.7): the states of the controller state
machine. -/
inductive RunStatus where
  | Idle
  | Running
  | Converged
  | Exhausted
  | Failed
deriving DecidableEq

/-- Modelled from the spec (§4.7, §7): termination evaluation — `Failed` when
the error count of the last call exceeds the configured tolerance,
`Exhausted` when the maximum generation count is reached, `Converged` on
stagnation for the configured number of generations, else `Running`. -/
def statusOf (cfg : GAConfig) (st : RunState) : RunStatus :=
  if cfg.failure_tolerance < st.lastFailures then .Failed
  else if cfg.max_generations ≤ st.gen then .Exhausted
  else if cfg.stagnation_generations ≤ st.stagnation then .Converged
  else .Running

/-- Modelled from the spec (§4.7): the generation loop — keep evolving while
the controller is `Running` (with fuel bounding the iteration count). -/
def runLoop (cfg : GAConfig) (relax : RelaxOracle) :
    ℕ → RunState → RunStatus × RunState
  | 0, st => (statusOf cfg st, st)
  | fuel + 1, st =>
      if statusOf cfg st = RunStatus.Running
      then runLoop cfg relax fuel (evolve cfg relax st none)
      else (statusOf cfg st, st)

/-- Concrete fixture: a one-atom structure. -/
def wStruct1 : StructureModel :=
  { lattice := 1, atoms := [(1, fun _ => 0)], pbc := fun _ => true }

/-- Concrete fixture: an atom of species 1 at the origin. -/
def wAtomA : ℕ × V3 := (1, fun _ => 0)

/-- Concrete fixture: an atom of species 2 at (1/2, 1/2, 1/2). -/
def wAtomB : ℕ × V3 := (2, fun _ => (1 : ℚ) / 2)

/-- Concrete fixture: a two-atom structure. -/
def wStruct2 : StructureModel :=
  { lattice := 1, atoms := [wAtomA, wAtomB], pbc := fun _ => true }

/-- Concrete fixture: a translation vector. -/
def wT : V3 := fun _ => 1

/-- Concrete fixture: an atom of species 1 at (1, 1, 1). -/
def wAtom1 : ℕ × V3 := (1, fun _ => 1)

/-- Concrete fixture: an atom of species 2 at (1, 1, 1). -/
def wAtom2 : ℕ × V3 := (2, fun _ => 1)

/-- Concrete fixture: crossover parent A. -/
def wParentA : StructureModel :=
  { lattice := 1, atoms := [wAtom1], pbc := fun _ => true }

/-- Concrete fixture: crossover parent B. -/
def wParentB : StructureModel :=
  { lattice := 1, atoms := [wAtom1, wAtom2], pbc := fun _ => true }

/-- Concrete fixture: the expected crossover child. -/
def wChild : StructureModel :=
  { lattice := 1, atoms := [wAtom1, wAtom2], pbc := fun _ => true }

/-- Concrete fixture: a structure with no atoms. -/
def wEmpty : StructureModel :=
  { lattice := 1, atoms := [], pbc := fun _ => true }

/-- Concrete fixture: a converged candidate of fitness 5. -/
def wCand : Candidate :=
  { struct := wStruct1, fitness := 5, converged := true, generation := 0,
    id := 0 }

/-- Concrete fixture: a non-converged candidate of fitness 5. -/
def wCandNC : Candidate :=
  { struct := wStruct1, fitness := 5, converged := false, generation := 0,
    id := 0 }

/-- Concrete fixture: a small run configuration. -/
def wCfg : GAConfig :=
  { population_size := 2
    num_offsprings := 1
    similarity_tolerance := 0
    nonconverged_penalty := 1
    p_mutate := 0
    max_generations := 1
    stagnation_generations := 2
    failure_tolerance := 0
    improvement_threshold := 0
    max_relaxation_iterations := 10
    convergence_energy_tolerance := 0
    target_composition := [1] }

/-- Concrete fixture: an oracle that never converges and never rejects. -/
def wRelax : RelaxOracle := fun _ _ _ => RelaxOutcome.done 3 false 0

/-- Concrete fixture: a freshly initialized run state with one candidate. -/
def wSt : RunState :=
  { pop := [wCand], gen := 0, stagnation := 0, lastFailures := 0, nextId := 1,
    seed := 0 }

/-- Concrete fixture: a zero minimum-distance table. -/
def wMinZero : ℕ → ℕ → ℚ := fun _ _ => 0

/-- Concrete fixture: an unsatisfiably large minimum-distance table. -/
def wMinBig : ℕ → ℕ → ℚ := fun _ _ => 1000000

/-- Concrete fixture: the structure proposed by the generator at seed 0. -/
def wGenStruct : StructureModel := proposeStructure [5] 1 0

theorem entriesClose_symm (tol : ℚ) :
    ∀ l1 l2 : List Entry, entriesClose tol l1 l2 = entriesClose tol l2 l1 := by
  intro l1
  induction l1 with
  | nil => intro l2; cases l2 <;> rfl
  | cons a t ih =>
      intro l2
      cases l2 with
      | nil => rfl
      | cons b t2 =>
          show ((decide (a.1 = b.1) && decide (a.2.1 = b.2.1) &&
              decide (|a.2.2 - b.2.2| ≤ tol)) && entriesClose tol t t2) = _
          rw [ih t2]
          have h1 : decide (a.1 = b.1) = decide (b.1 = a.1) := by
            simp [eq_comm]
          have h2 : decide (a.2.1 = b.2.1) = decide (b.2.1 = a.2.1) := by
            simp [eq_comm]
          have h3 : |a.2.2 - b.2.2| = |b.2.2 - a.2.2| := abs_sub_comm _ _
          rw [h1, h2, h3]
          rfl

theorem dotProduct_vecMul_self (u : V3) (R : Matrix (Fin 3) (Fin 3) ℚ)
    (hR : R * R.transpose = 1) :
    Matrix.dotProduct (Matrix.vecMul u R) (Matrix.vecMul u R) =
      Matrix.dotProduct u u := by
  rw [← Matrix.mulVec_transpose R u, Matrix.dotProduct_mulVec,
    Matrix.mulVec_transpose, Matrix.vecMul_vecMul, hR, Matrix.vecMul_one]

theorem distSq_vecMul (x y : V3) (R : Matrix (Fin 3) (Fin 3) ℚ)
    (hR : R * R.transpose = 1) :
    distSq (Matrix.vecMul x R) (Matrix.vecMul y R) = distSq x y := by
  unfold distSq
  have h : Matrix.vecMul x R - Matrix.vecMul y R = Matrix.vecMul (x - y) R := by
    rw [Matrix.sub_vecMul]
  rw [h]
  exact dotProduct_vecMul_self (x - y) R hR

theorem fingerprint_translate (s : StructureModel) (t : V3) :
    fingerprint (translateStructure s t) = fingerprint s := by
  unfold fingerprint translateStructure
  simp only
  rw [List.sym2_map, List.map_map]
  congr 1
  apply List.map_congr_left
  intro z _
  induction z using Sym2.ind with
  | _ a b =>
      simp only [Function.comp, Sym2.map_pair_eq]
      show entryOfPair s.lattice (Sym2.mk _) = entryOfPair s.lattice (Sym2.mk _)
      unfold entryOfPair
      rw [Sym2.lift_mk, Sym2.lift_mk]
      unfold pairFun cartPos
      simp only
      congr 1
      rw [Matrix.add_vecMul, Matrix.add_vecMul]
      congr 1
      unfold distSq
      congr 1 <;> abel

theorem fingerprint_rotate (s : StructureModel) (R : Matrix (Fin 3) (Fin 3) ℚ)
    (hR : R * R.transpose = 1) :
    fingerprint (rotateStructure s R) = fingerprint s := by
  unfold fingerprint rotateStructure
  simp only
  congr 1
  apply List.map_congr_left
  intro z _
  induction z using Sym2.ind with
  | _ a b =>
      unfold entryOfPair
      rw [Sym2.lift_mk, Sym2.lift_mk]
      unfold pairFun cartPos
      simp only
      congr 1
      congr 1
      rw [← Matrix.vecMul_vecMul, ← Matrix.vecMul_vecMul]
      exact distSq_vecMul _ _ R hR

theorem fingerprint_perm (s : StructureModel) (l : List (ℕ × V3))
    (h : s.atoms.Perm l) :
    fingerprint (reorderStructure s l) = fingerprint s := by
  unfold fingerprint reorderStructure
  simp only
  exact Multiset.coe_eq_coe.mpr ((h.symm.sym2).map _)

theorem are_equivalent_symm (s1 s2 : StructureModel) (tol : ℚ) :
    are_equivalent s1 s2 tol = are_equivalent s2 s1 tol :=
  entriesClose_symm tol (signature s1) (signature s2)

theorem are_equivalent_congr_left {s1 s1' : StructureModel}
    (h : fingerprint s1' = fingerprint s1) (s2 : StructureModel) (tol : ℚ) :
    are_equivalent s1' s2 tol = are_equivalent s1 s2 tol := by
  unfold are_equivalent signature
  rw [h]

theorem generate_ok_valid (minSq : ℕ → ℕ → ℚ) (speciesList : List ℕ)
    (bound : ℚ) :
    ∀ fuel seed s,
      RandomStructureGenerator.generate minSq speciesList bound fuel seed =
        Except.ok s →
      isPhysicallyValid minSq s = true := by
  intro fuel
  induction fuel with
  | zero => intro seed s h; exact absurd h (by simp [RandomStructureGenerator.generate])
  | succ n ih =>
      intro seed s h
      unfold RandomStructureGenerator.generate at h
      by_cases hv :
          isPhysicallyValid minSq (proposeStructure speciesList bound seed) = true
      · simp only [hv, if_true] at h
        cases h
        exact hv
      · simp only [hv, if_false, Bool.false_eq_true] at h
        exact ih (rngNext seed) s h

theorem generate_exhausts (minSq : ℕ → ℕ → ℚ) (speciesList : List ℕ)
    (bound : ℚ) :
    ∀ fuel seed,
      (∀ k, k < fuel →
        isPhysicallyValid minSq
          (proposeStructure speciesList bound (rngNext^[k] seed)) = false) →
      RandomStructureGenerator.generate minSq speciesList bound fuel seed =
        Except.error GAError.generationError := by
  intro fuel
  induction fuel with
  | zero => intro seed _; rfl
  | succ n ih =>
      intro seed hbad
      unfold RandomStructureGenerator.generate
      have h0 : isPhysicallyValid minSq
          (proposeStructure speciesList bound seed) = false := by
        have := hbad 0 (Nat.succ_pos n)
        simpa using this
      simp only [h0, Bool.false_eq_true, if_false]
      apply ih
      intro k hk
      have := hbad (k + 1) (by omega)
      rwa [Function.iterate_succ_apply] at this

theorem sameComposition_spec {atoms : List (ℕ × V3)} {target : List ℕ}
    (h : sameComposition atoms target = true) :
    listComposition atoms = ↑target := by
  unfold sameComposition at h
  rw [Bool.and_eq_true] at h
  obtain ⟨h1, h2⟩ := h
  unfold listComposition
  refine Multiset.ext.mpr ?_
  intro a
  rw [Multiset.coe_count, Multiset.coe_count]
  by_cases ha : a ∈ atoms.map Prod.fst
  · exact of_decide_eq_true (List.all_eq_true.mp h1 a ha)
  · by_cases hb : a ∈ target
    · exact of_decide_eq_true (List.all_eq_true.mp h2 a hb)
    · rw [List.count_eq_zero_of_not_mem ha, List.count_eq_zero_of_not_mem hb]

theorem reconcile_composition (target : List ℕ) (newPos : ℕ → V3) :
    ∀ fuel atoms l,
      reconcile target newPos fuel atoms = some l →
      listComposition l = ↑target := by
  intro fuel
  induction fuel with
  | zero =>
      intro atoms l h
      unfold reconcile at h
      by_cases hc : sameComposition atoms target = true
      · rw [if_pos hc] at h
        cases h
        exact sameComposition_spec hc
      · rw [if_neg hc] at h
        cases h
  | succ n ih =>
      intro atoms l h
      unfold reconcile at h
      by_cases hc : sameComposition atoms target = true
      · rw [if_pos hc] at h
        cases h
        exact sameComposition_spec hc
      · rw [if_neg hc] at h
        cases hov : overSpecies target atoms with
        | some sp =>
            rw [hov] at h
            exact ih _ _ h
        | none =>
            rw [hov] at h
            cases hms : missingSpecies target atoms with
            | some sp =>
                rw [hms] at h
                exact ih _ _ h
            | none =>
                rw [hms] at h
                cases h

theorem crossover_never_errors (target : List ℕ) (A B : StructureModel)
    (seed : ℕ) : ∃ s, crossover target A B seed = Except.ok s := by
  unfold crossover
  cases h : tryCrossover target A B seed with
  | some c => exact ⟨c, rfl⟩
  | none => exact ⟨mutate A seed, rfl⟩

theorem crossover_fallback (target : List ℕ) (A B : StructureModel) (seed : ℕ)
    (h : tryCrossover target A B seed = none) :
    crossover target A B seed = Except.ok (mutate A seed) := by
  unfold crossover
  rw [h]

theorem tryCrossover_composition (target : List ℕ) (A B : StructureModel)
    (seed : ℕ) (c : StructureModel)
    (h : tryCrossover target A B seed = some c) :
    composition c = ↑target := by
  unfold tryCrossover at h
  cases hr : reconcile target (fun k i => rngUnit (rngNext^[k + i.val] seed))
      reconcileFuel (cutChild A B seed) with
  | none => rw [hr] at h; cases h
  | some atoms =>
      rw [hr] at h
      cases h
      exact reconcile_composition _ _ _ _ _ hr

theorem equivCand_symm (tol : ℚ) (a b : Candidate) :
    equivCand tol a b = equivCand tol b a :=
  are_equivalent_symm a.struct b.struct tol

theorem worstIdx_none {pop : List Candidate} (h : worstIdx pop = none) :
    pop = [] := by
  cases pop with
  | nil => rfl
  | cons c t =>
      exfalso
      unfold worstIdx at h
      split at h
      · cases h
      · split at h <;> cases h

theorem worstIdx_spec :
    ∀ (pop : List Candidate) (i : ℕ) (f : ℚ), worstIdx pop = some (i, f) →
      ∃ h : i < pop.length,
        (pop.get ⟨i, h⟩).fitness = f ∧ ∀ m ∈ pop, m.fitness ≤ f := by
  intro pop
  induction pop with
  | nil => intro i f h; cases h
  | cons c t ih =>
      intro i f h
      unfold worstIdx at h
      split at h
      · rename_i hw
        simp only [Option.some.injEq, Prod.mk.injEq] at h
        obtain ⟨rfl, rfl⟩ := h
        have ht : t = [] := worstIdx_none hw
        subst ht
        refine ⟨Nat.zero_lt_one, rfl, ?_⟩
        intro m hm
        rcases List.mem_singleton.mp hm with rfl
        exact le_refl _
      · rename_i i0 f0 hw
        obtain ⟨h0, hget, hub⟩ := ih i0 f0 hw
        split at h
        · rename_i hf
          simp only [Option.some.injEq, Prod.mk.injEq] at h
          obtain ⟨rfl, rfl⟩ := h
          refine ⟨Nat.succ_lt_succ h0, hget, ?_⟩
          intro m hm
          rcases List.mem_cons.mp hm with rfl | hm
          · exact le_of_lt hf
          · exact hub m hm
        · rename_i hf
          simp only [Option.some.injEq, Prod.mk.injEq] at h
          obtain ⟨rfl, rfl⟩ := h
          refine ⟨Nat.succ_pos _, rfl, ?_⟩
          intro m hm
          rcases List.mem_cons.mp hm with rfl | hm
          · exact le_refl _
          · exact le_trans (hub m hm) (not_lt.mp hf)

theorem bestFitness_isSome :
    ∀ (pop : List Candidate), pop ≠ [] → ∃ b, bestFitness pop = some b := by
  intro pop h
  cases pop with
  | nil => exact absurd rfl h
  | cons c t =>
      unfold bestFitness
      cases bestFitness t with
      | none => exact ⟨c.fitness, rfl⟩
      | some b => exact ⟨min c.fitness b, rfl⟩

theorem bestFitness_spec :
    ∀ (pop : List Candidate) (b : ℚ), bestFitness pop = some b →
      (∃ m ∈ pop, m.fitness = b) ∧ ∀ m ∈ pop, b ≤ m.fitness := by
  intro pop
  induction pop with
  | nil => intro b h; cases h
  | cons c t ih =>
      intro b h
      unfold bestFitness at h
      split at h
      · rename_i hb
        simp only [Option.some.injEq] at h
        subst h
        have ht : t = [] := by
          cases t with
          | nil => rfl
          | cons d u =>
              exfalso
              unfold bestFitness at hb
              split at hb <;> cases hb
        subst ht
        exact ⟨⟨c, List.mem_singleton_self c, rfl⟩, by
          intro m hm
          rcases List.mem_singleton.mp hm with rfl
          exact le_refl _⟩
      · rename_i b0 hb
        simp only [Option.some.injEq] at h
        subst h
        obtain ⟨⟨m0, hm0, hm0f⟩, hlb⟩ := ih b0 hb
        constructor
        · rcases le_total c.fitness b0 with hc | hc
          · exact ⟨c, List.mem_cons_self c t, (min_eq_left hc).symm⟩
          · exact ⟨m0, List.mem_cons_of_mem c hm0, by
              rw [min_eq_right hc]; exact hm0f⟩
        · intro m hm
          rcases List.mem_cons.mp hm with rfl | hm
          · exact min_le_left _ _
          · exact le_trans (min_le_right _ _) (hlb m hm)

theorem bestFitness_le_of_mem_le {pop : List Candidate} {m : Candidate}
    (hm : m ∈ pop) {x : ℚ} (hx : m.fitness ≤ x) :
    ∃ b, bestFitness pop = some b ∧ b ≤ x := by
  have hne : pop ≠ [] := by
    intro h
    subst h
    exact absurd hm (List.not_mem_nil m)
  obtain ⟨b, hb⟩ := bestFitness_isSome pop hne
  exact ⟨b, hb, le_trans ((bestFitness_spec pop b hb).2 m hm) hx⟩

theorem insert_best_mono (tol : ℚ) (cap : ℕ) (pop : List Candidate)
    (c : Candidate) (b : ℚ) (hb : bestFitness pop = some b) :
    ∃ b2, bestFitness (insert_candidate tol cap pop c) = some b2 ∧ b2 ≤ b := by
  unfold insert_candidate
  split
  · obtain ⟨⟨m, hm, hmf⟩, _⟩ := bestFitness_spec pop b hb
    exact bestFitness_le_of_mem_le (List.mem_append_left [c] hm) (le_of_eq hmf)
  · split
    · exact ⟨b, hb, le_refl b⟩
    · rename_i i f hw
      split
      · rename_i h2
        obtain ⟨hi, hif, hub⟩ := worstIdx_spec pop i f hw
        obtain ⟨⟨m, hm, hmf⟩, hlb⟩ := bestFitness_spec pop b hb
        rcases eq_or_lt_of_le (hlb _ (List.get_mem pop i hi)) with hbf | hbf
        · -- the worst member attains the old best: the new candidate is
          -- strictly better than the old best
          have hcb : c.fitness ≤ b := by
            rw [hbf, hif]
            exact le_of_lt h2.1
          exact bestFitness_le_of_mem_le
            (List.mem_append_right _ (List.mem_singleton_self c)) hcb
        · -- the old minimizer is not the erased index, hence survives
          obtain ⟨j, hj⟩ := List.mem_iff_get.mp hm
          have hjf : (pop.get j).fitness = b := by rw [hj]; exact hmf
          have hji : (j : ℕ) ≠ i := by
            intro hji
            have hgg : pop.get j = pop.get ⟨i, hi⟩ := by
              congr 1
              exact Fin.ext hji
            rw [hgg] at hjf
            rw [hjf] at hbf
            exact lt_irrefl b hbf
          have hmem : m ∈ pop.eraseIdx i := by
            rw [List.mem_eraseIdx_iff_getElem]
            refine ⟨j, j.isLt, hji, ?_⟩
            rw [← hj]
            simp
          exact bestFitness_le_of_mem_le (List.mem_append_left _ hmem)
            (le_of_eq hmf)
      · exact ⟨b, hb, le_refl b⟩

theorem insert_length_le (tol : ℚ) (cap : ℕ) (pop : List Candidate)
    (c : Candidate) (h : pop.length ≤ cap) :
    (insert_candidate tol cap pop c).length ≤ cap := by
  unfold insert_candidate
  split
  · rename_i h1
    rw [List.length_append, List.length_singleton]
    omega
  · split
    · exact h
    · rename_i i f hw
      split
      · obtain ⟨hi, _, _⟩ := worstIdx_spec pop i f hw
        rw [List.length_append, List.length_singleton]
        have := List.length_eraseIdx_add_one hi
        omega
      · exact h

theorem insert_length_ge (tol : ℚ) (cap : ℕ) (pop : List Candidate)
    (c : Candidate) : pop.length ≤ (insert_candidate tol cap pop c).length := by
  unfold insert_candidate
  split
  · rw [List.length_append, List.length_singleton]
    omega
  · split
    · exact le_refl _
    · rename_i i f hw
      split
      · obtain ⟨hi, _, _⟩ := worstIdx_spec pop i f hw
        rw [List.length_append, List.length_singleton]
        have := List.length_eraseIdx_add_one hi
        omega
      · exact le_refl _

theorem notEquivAll_spec {tol : ℚ} {c : Candidate} {pop : List Candidate}
    (h : notEquivAll tol c pop = true) :
    ∀ m ∈ pop, equivCand tol m c = false := by
  intro m hm
  have := List.all_eq_true.mp h m hm
  rw [equivCand_symm]
  simpa using this

theorem insert_pairwiseNE (tol : ℚ) (cap : ℕ) (pop : List Candidate)
    (c : Candidate) (h : PairwiseNE tol pop) :
    PairwiseNE tol (insert_candidate tol cap pop c) := by
  unfold insert_candidate
  split
  · rename_i h1
    rw [PairwiseNE, List.pairwise_append]
    refine ⟨h, List.pairwise_singleton _ _, ?_⟩
    intro a ha b hb
    rcases List.mem_singleton.mp hb with rfl
    exact notEquivAll_spec h1.2 a ha
  · split
    · exact h
    · rename_i i f hw
      split
      · rename_i h2
        rw [PairwiseNE, List.pairwise_append]
        refine ⟨List.Pairwise.sublist (List.eraseIdx_sublist pop i) h,
          List.pairwise_singleton _ _, ?_⟩
        intro a ha b hb
        rcases List.mem_singleton.mp hb with rfl
        exact notEquivAll_spec h2.2 a ha
      · exact h

theorem foldl_applyChild_best (cfg : GAConfig) (gen : ℕ) :
    ∀ (children : List (Except GAError (StructureModel × ℚ × Bool)))
      (acc : List Candidate × ℕ × ℕ) (b : ℚ),
      bestFitness acc.1 = some b →
      ∃ b2, bestFitness ((children.foldl (applyChild cfg gen) acc)).1 = some b2 ∧
        b2 ≤ b := by
  intro children
  induction children with
  | nil => intro acc b hb; exact ⟨b, hb, le_refl b⟩
  | cons r t ih =>
      intro acc b hb
      rw [List.foldl_cons]
      cases r with
      | error e => exact ih _ b hb
      | ok x =>
          obtain ⟨b1, hb1, hle1⟩ := insert_best_mono cfg.similarity_tolerance
            cfg.population_size acc.1 _ b hb
          obtain ⟨b2, hb2, hle2⟩ := ih (applyChild cfg gen acc (.ok x)) b1 hb1
          exact ⟨b2, hb2, le_trans hle2 hle1⟩

theorem foldl_applyChild_le_cap (cfg : GAConfig) (gen : ℕ) :
    ∀ (children : List (Except GAError (StructureModel × ℚ × Bool)))
      (acc : List Candidate × ℕ × ℕ),
      acc.1.length ≤ cfg.population_size →
      ((children.foldl (applyChild cfg gen) acc)).1.length ≤
        cfg.population_size := by
  intro children
  induction children with
  | nil => intro acc h; exact h
  | cons r t ih =>
      intro acc h
      rw [List.foldl_cons]
      cases r with
      | error e => exact ih _ h
      | ok x =>
          exact ih _ (insert_length_le cfg.similarity_tolerance
            cfg.population_size acc.1 _ h)

theorem foldl_applyChild_ge (cfg : GAConfig) (gen : ℕ) :
    ∀ (children : List (Except GAError (StructureModel × ℚ × Bool)))
      (acc : List Candidate × ℕ × ℕ),
      acc.1.length ≤ ((children.foldl (applyChild cfg gen) acc)).1.length := by
  intro children
  induction children with
  | nil => intro acc; exact le_refl _
  | cons r t ih =>
      intro acc
      rw [List.foldl_cons]
      cases r with
      | error e => exact ih (applyChild cfg gen acc (Except.error e))
      | ok x =>
          exact le_trans
            (insert_length_ge cfg.similarity_tolerance cfg.population_size
              acc.1 _)
            (ih (applyChild cfg gen acc (Except.ok x)))

theorem foldl_applyChild_pairwise (cfg : GAConfig) (gen : ℕ) :
    ∀ (children : List (Except GAError (StructureModel × ℚ × Bool)))
      (acc : List Candidate × ℕ × ℕ),
      PairwiseNE cfg.similarity_tolerance acc.1 →
      PairwiseNE cfg.similarity_tolerance
        ((children.foldl (applyChild cfg gen) acc)).1 := by
  intro children
  induction children with
  | nil => intro acc h; exact h
  | cons r t ih =>
      intro acc h
      rw [List.foldl_cons]
      cases r with
      | error e => exact ih _ h
      | ok x =>
          exact ih _ (insert_pairwiseNE cfg.similarity_tolerance
            cfg.population_size acc.1 _ h)

theorem foldl_applyChild_failures (cfg : GAConfig) (gen : ℕ) :
    ∀ (children : List (Except GAError (StructureModel × ℚ × Bool)))
      (acc : List Candidate × ℕ × ℕ),
      (∀ r ∈ children, ∃ x, r = Except.ok x) →
      ((children.foldl (applyChild cfg gen) acc)).2.1 = acc.2.1 := by
  intro children
  induction children with
  | nil => intro acc _; rfl
  | cons r t ih =>
      intro acc hok
      rw [List.foldl_cons]
      obtain ⟨x, rfl⟩ := hok r (List.mem_cons_self r t)
      rw [ih (applyChild cfg gen acc (Except.ok x))
        (fun q hq => hok q (List.mem_cons_of_mem _ hq))]
      rfl

theorem evolve_gen (cfg : GAConfig) (relax : RelaxOracle) (st : RunState)
    (num : Option ℕ) : (evolve cfg relax st num).gen = st.gen + 1 := rfl

theorem evolve_best_mono (cfg : GAConfig) (relax : RelaxOracle) (st : RunState)
    (num : Option ℕ) (b : ℚ) (hb : bestFitness st.pop = some b) :
    ∃ b2, bestFitness (evolve cfg relax st num).pop = some b2 ∧ b2 ≤ b :=
  foldl_applyChild_best cfg st.gen
    ((List.range (num.getD cfg.num_offsprings)).map (makeChild cfg relax st))
    (st.pop, 0, st.nextId) b hb

theorem evolve_cap (cfg : GAConfig) (relax : RelaxOracle) (st : RunState)
    (num : Option ℕ) (h : st.pop.length ≤ cfg.population_size) :
    (evolve cfg relax st num).pop.length ≤ cfg.population_size :=
  foldl_applyChild_le_cap cfg st.gen
    ((List.range (num.getD cfg.num_offsprings)).map (makeChild cfg relax st))
    (st.pop, 0, st.nextId) h

theorem evolve_pairwise (cfg : GAConfig) (relax : RelaxOracle) (st : RunState)
    (num : Option ℕ) (h : PairwiseNE cfg.similarity_tolerance st.pop) :
    PairwiseNE cfg.similarity_tolerance (evolve cfg relax st num).pop :=
  foldl_applyChild_pairwise cfg st.gen
    ((List.range (num.getD cfg.num_offsprings)).map (makeChild cfg relax st))
    (st.pop, 0, st.nextId) h

theorem evolve_pop_ne_nil (cfg : GAConfig) (relax : RelaxOracle) (st : RunState)
    (num : Option ℕ) (h : st.pop ≠ []) :
    (evolve cfg relax st num).pop ≠ [] := by
  intro hnil
  have hge : st.pop.length ≤ (evolve cfg relax st num).pop.length :=
    foldl_applyChild_ge cfg st.gen
      ((List.range (num.getD cfg.num_offsprings)).map (makeChild cfg relax st))
      (st.pop, 0, st.nextId)
  rw [hnil] at hge
  exact h (List.length_eq_zero.mp (Nat.le_zero.mp (by simpa using hge)))

theorem makeChild_ok (cfg : GAConfig) (relax : RelaxOracle) (st : RunState)
    (k : ℕ)
    (hO : ∀ s n t, ∃ e i, relax s n t = RelaxOutcome.done e false i)
    (hpop : st.pop ≠ []) :
    ∃ e, makeChild cfg relax st k =
      Except.ok (childStructure cfg st k, e, false) := by
  obtain ⟨e, i, hrel⟩ := hO (childStructure cfg st k)
    cfg.max_relaxation_iterations cfg.convergence_energy_tolerance
  refine ⟨e, ?_⟩
  unfold makeChild
  rw [if_neg hpop]
  unfold evalChild evaluate
  rw [hrel]

theorem evolve_lastFailures (cfg : GAConfig) (relax : RelaxOracle)
    (st : RunState) (num : Option ℕ)
    (hO : ∀ s n t, ∃ e i, relax s n t = RelaxOutcome.done e false i)
    (hpop : st.pop ≠ []) :
    (evolve cfg relax st num).lastFailures = 0 := by
  show (offspringResults cfg relax st (num.getD cfg.num_offsprings)).2.1 = 0
  unfold offspringResults
  apply foldl_applyChild_failures
  intro r hr
  obtain ⟨k, _, rfl⟩ := List.mem_map.mp hr
  obtain ⟨e, he⟩ := makeChild_ok cfg relax st k hO hpop
  exact ⟨_, he⟩

theorem evolve_stagnation (cfg : GAConfig) (relax : RelaxOracle) (st : RunState)
    (num : Option ℕ) :
    (evolve cfg relax st num).stagnation = 0 ∨
      (evolve cfg relax st num).stagnation = st.stagnation + 1 := by
  cases hI : improvedFlag cfg.improvement_threshold st.pop
      (offspringResults cfg relax st (num.getD cfg.num_offsprings)).1 with
  | true =>
      left
      show (if improvedFlag cfg.improvement_threshold st.pop
          (offspringResults cfg relax st (num.getD cfg.num_offsprings)).1 = true
        then 0 else st.stagnation + 1) = 0
      rw [hI, if_pos rfl]
  | false =>
      right
      show (if improvedFlag cfg.improvement_threshold st.pop
          (offspringResults cfg relax st (num.getD cfg.num_offsprings)).1 = true
        then 0 else st.stagnation + 1) = st.stagnation + 1
      rw [hI]
      rw [if_neg (by intro h; cases h)]

theorem statusOf_not_failed (cfg : GAConfig) (st : RunState)
    (hf : st.lastFailures ≤ cfg.failure_tolerance) :
    statusOf cfg st ≠ RunStatus.Failed := by
  unfold statusOf
  rw [if_neg (not_lt.mpr hf)]
  split
  · intro h; cases h
  · split
    · intro h; cases h
    · intro h; cases h

theorem statusOf_exhausted (cfg : GAConfig) (st : RunState)
    (hf : st.lastFailures ≤ cfg.failure_tolerance)
    (hg : cfg.max_generations ≤ st.gen) :
    statusOf cfg st = RunStatus.Exhausted := by
  unfold statusOf
  rw [if_neg (not_lt.mpr hf), if_pos hg]

theorem statusOf_running (cfg : GAConfig) (st : RunState)
    (hf : st.lastFailures ≤ cfg.failure_tolerance)
    (hg : st.gen < cfg.max_generations)
    (hs : st.stagnation < cfg.stagnation_generations) :
    statusOf cfg st = RunStatus.Running := by
  unfold statusOf
  rw [if_neg (not_lt.mpr hf), if_neg (not_le.mpr hg), if_neg (not_le.mpr hs)]

theorem runLoop_exhausts (cfg : GAConfig) (relax : RelaxOracle)
    (hO : ∀ s n t, ∃ e i, relax s n t = RelaxOutcome.done e false i)
    (hK : cfg.max_generations < cfg.stagnation_generations) :
    ∀ fuel st, st.pop ≠ [] →
      st.lastFailures ≤ cfg.failure_tolerance →
      st.stagnation ≤ st.gen →
      st.gen ≤ cfg.max_generations →
      cfg.max_generations ≤ st.gen + fuel →
      ∃ st2, runLoop cfg relax fuel st = (RunStatus.Exhausted, st2) ∧
        st2.gen = cfg.max_generations := by
  intro fuel
  induction fuel with
  | zero =>
      intro st hpop hf hs hg1 hg2
      have hgen : st.gen = cfg.max_generations := by omega
      refine ⟨st, ?_, hgen⟩
      unfold runLoop
      rw [statusOf_exhausted cfg st hf (le_of_eq hgen.symm)]
  | succ n ih =>
      intro st hpop hf hs hg1 hg2
      by_cases hdone : cfg.max_generations ≤ st.gen
      · have hstat := statusOf_exhausted cfg st hf hdone
        refine ⟨st, ?_, by omega⟩
        unfold runLoop
        rw [if_neg (by rw [hstat]; intro h; cases h), hstat]
      · push_neg at hdone
        have hstat := statusOf_running cfg st hf hdone (by omega)
        unfold runLoop
        rw [if_pos hstat]
        apply ih (evolve cfg relax st none)
        · exact evolve_pop_ne_nil _ _ _ _ hpop
        · rw [evolve_lastFailures cfg relax st none hO hpop]
          exact Nat.zero_le _
        · rcases evolve_stagnation cfg relax st none with h | h
          · rw [h]; omega
          · rw [h, evolve_gen]; omega
        · rw [evolve_gen]; omega
        · rw [evolve_gen]; omega

theorem evolveIter_invariant (cfg : GAConfig) (relax : RelaxOracle)
    (hO : ∀ s n t, ∃ e i, relax s n t = RelaxOutcome.done e false i) :
    ∀ (k : ℕ) (st : RunState), st.pop ≠ [] →
      st.lastFailures ≤ cfg.failure_tolerance →
      ((fun s => evolve cfg relax s none)^[k] st).pop ≠ [] ∧
        ((fun s => evolve cfg relax s none)^[k] st).lastFailures ≤
          cfg.failure_tolerance := by
  intro k
  induction k with
  | zero => intro st h1 h2; exact ⟨h1, h2⟩
  | succ n ih =>
      intro st h1 h2
      rw [Function.iterate_succ_apply]
      exact ih (evolve cfg relax st none) (evolve_pop_ne_nil _ _ _ _ h1)
        (by rw [evolve_lastFailures cfg relax st none hO h1]
            exact Nat.zero_le _)

theorem applyEvolves_gen (cfg : GAConfig) (relax : RelaxOracle) :
    ∀ (nums : List (Option ℕ)) (st : RunState),
      (applyEvolves cfg relax nums st).gen = st.gen + nums.length := by
  intro nums
  induction nums with
  | nil => intro st; rfl
  | cons nm t ih =>
      intro st
      show (applyEvolves cfg relax t (evolve cfg relax st nm)).gen = _
      rw [ih, evolve_gen, List.length_cons]
      omega

theorem applyEvolves_best (cfg : GAConfig) (relax : RelaxOracle) :
    ∀ (nums : List (Option ℕ)) (st : RunState) (b : ℚ),
      bestFitness st.pop = some b →
      ∃ b2, bestFitness (applyEvolves cfg relax nums st).pop = some b2 ∧
        b2 ≤ b := by
  intro nums
  induction nums with
  | nil => intro st b hb; exact ⟨b, hb, le_refl b⟩
  | cons nm t ih =>
      intro st b hb
      obtain ⟨b1, hb1, hle1⟩ := evolve_best_mono cfg relax st nm b hb
      obtain ⟨b2, hb2, hle2⟩ := ih (evolve cfg relax st nm) b1 hb1
      exact ⟨b2, hb2, le_trans hle2 hle1⟩

theorem applyEvolves_cap (cfg : GAConfig) (relax : RelaxOracle) :
    ∀ (nums : List (Option ℕ)) (st : RunState),
      st.pop.length ≤ cfg.population_size →
      (applyEvolves cfg relax nums st).pop.length ≤ cfg.population_size := by
  intro nums
  induction nums with
  | nil => intro st h; exact h
  | cons nm t ih =>
      intro st h
      exact ih (evolve cfg relax st nm) (evolve_cap cfg relax st nm h)

theorem applyEvolves_pairwise (cfg : GAConfig) (relax : RelaxOracle) :
    ∀ (nums : List (Option ℕ)) (st : RunState),
      PairwiseNE cfg.similarity_tolerance st.pop →
      PairwiseNE cfg.similarity_tolerance
        (applyEvolves cfg relax nums st).pop := by
  intro nums
  induction nums with
  | nil => intro st h; exact h
  | cons nm t ih =>
      intro st h
      exact ih (evolve cfg relax st nm) (evolve_pairwise cfg relax st nm h)

/-- C1: For every sequence of `evolve()` calls on one evolutionary run, the
best (lowest) fitness present in the population after each call is less than
or equal to the best fitness before that call: best fitness is non-increasing
over successive generations, never regressing. -/
theorem claim_best_fitness_monotone (cfg : GAConfig) (relax : RelaxOracle)
    (nums : List (Option ℕ)) (st : RunState) (b : ℚ)
    (hb : bestFitness st.pop = some b) :
    ∃ b2, bestFitness (applyEvolves cfg relax nums st).pop = some b2 ∧
      b2 ≤ b :=
  applyEvolves_best cfg relax nums st b hb

/-- Witness for C1 at a concrete configuration and one-candidate state. -/
theorem claim_best_fitness_monotone_witness :
    ∃ b2, bestFitness (applyEvolves wCfg wRelax [none] wSt).pop = some b2 ∧
      b2 ≤ 5 :=
  claim_best_fitness_monotone wCfg wRelax [none] wSt 5 (by decide)

/-- C2: For every sequence of `evolve()` calls, after each call completes the
population size is at most the configured `population_size`, and no two
surviving members are mutually equivalent per SimilarityOracle within the
configured tolerance. -/
theorem claim_population_invariants (cfg : GAConfig) (relax : RelaxOracle)
    (nums : List (Option ℕ)) (st : RunState)
    (hcap : st.pop.length ≤ cfg.population_size)
    (hdiv : PairwiseNE cfg.similarity_tolerance st.pop) :
    (applyEvolves cfg relax nums st).pop.length ≤ cfg.population_size ∧
      PairwiseNE cfg.similarity_tolerance (applyEvolves cfg relax nums st).pop :=
  ⟨applyEvolves_cap cfg relax nums st hcap,
    applyEvolves_pairwise cfg relax nums st hdiv⟩

/-- Witness for C2 at a concrete configuration and one-candidate state. -/
theorem claim_population_invariants_witness :
    (applyEvolves wCfg wRelax [none] wSt).pop.length ≤ wCfg.population_size ∧
      PairwiseNE wCfg.similarity_tolerance (applyEvolves wCfg wRelax [none] wSt).pop :=
  claim_population_invariants wCfg wRelax [none] wSt (by decide)
    (List.pairwise_singleton _ _)

/-- C3: For every successful crossover of two parent structures under a fixed
target composition (reconciliation reached the target), the child structure's
species multiset equals the configured target composition exactly. -/
theorem claim_crossover_composition (target : List ℕ) (A B : StructureModel)
    (seed : ℕ) (c : StructureModel)
    (h : tryCrossover target A B seed = some c) :
    crossover target A B seed = Except.ok c ∧ composition c = ↑target := by
  constructor
  · unfold crossover
    rw [h]
  · exact tryCrossover_composition target A B seed c h

/-- Witness for C3: a concrete successful crossover whose child has exactly
the target composition. -/
theorem claim_crossover_composition_witness :
    crossover [1, 2] wParentA wParentB 0 = Except.ok wChild ∧
      composition wChild = ↑[1, 2] :=
  claim_crossover_composition [1, 2] wParentA wParentB 0 wChild (by decide)

/-- C4: `are_equivalent` is symmetric, and invariant under uniform
translation of the coordinates of one argument, under any rigid rotation
applied jointly to that argument's lattice and coordinates, and under
reordering of its atom listing. -/
theorem claim_similarity_invariance :
    (∀ (s1 s2 : StructureModel) (tol : ℚ),
      are_equivalent s1 s2 tol = are_equivalent s2 s1 tol) ∧
    (∀ (s1 s2 : StructureModel) (tol : ℚ) (t : V3),
      are_equivalent (translateStructure s1 t) s2 tol =
        are_equivalent s1 s2 tol) ∧
    (∀ (s1 s2 : StructureModel) (tol : ℚ) (R : Matrix (Fin 3) (Fin 3) ℚ),
      R * R.transpose = 1 →
      are_equivalent (rotateStructure s1 R) s2 tol =
        are_equivalent s1 s2 tol) ∧
    (∀ (s1 : StructureModel) (l : List (ℕ × V3)) (s2 : StructureModel)
        (tol : ℚ), s1.atoms.Perm l →
      are_equivalent (reorderStructure s1 l) s2 tol =
        are_equivalent s1 s2 tol) :=
  ⟨fun s1 s2 tol => are_equivalent_symm s1 s2 tol,
    fun s1 s2 tol t =>
      are_equivalent_congr_left (fingerprint_translate s1 t) s2 tol,
    fun s1 s2 tol R hR =>
      are_equivalent_congr_left (fingerprint_rotate s1 R hR) s2 tol,
    fun s1 l s2 tol hp =>
      are_equivalent_congr_left (fingerprint_perm s1 l hp) s2 tol⟩

/-- Witness for C4 at concrete structures, a concrete translation, the
identity rotation, and a concrete transposition of the atom listing. -/
theorem claim_similarity_invariance_witness :
    are_equivalent wStruct2 wStruct1 1 = are_equivalent wStruct1 wStruct2 1 ∧
    are_equivalent (translateStructure wStruct2 wT) wStruct1 1 =
      are_equivalent wStruct2 wStruct1 1 ∧
    are_equivalent (rotateStructure wStruct2 1) wStruct1 1 =
      are_equivalent wStruct2 wStruct1 1 ∧
    are_equivalent (reorderStructure wStruct2 [wAtomB, wAtomA]) wStruct1 1 =
      are_equivalent wStruct2 wStruct1 1 := by
  obtain ⟨h1, h2, h3, h4⟩ := claim_similarity_invariance
  exact ⟨h1 wStruct2 wStruct1 1,
    h2 wStruct2 wStruct1 1 wT,
    h3 wStruct2 wStruct1 1 1 (by rw [Matrix.transpose_one, one_mul]),
    h4 wStruct2 [wAtomB, wAtomA] wStruct1 1 (List.Perm.swap wAtomB wAtomA [])⟩

/-- C5: `evaluate` returns the best energy obtained tagged `converged=false`
(rather than raising) when the oracle reports non-convergence; it raises
`EvaluationFailure` exactly when the oracle rejects the structure outright; a
non-convergent candidate is handed to insertion (kept) while a failed one is
excluded; and a non-convergent candidate is penalized in selection ranking. -/
theorem claim_evaluator_nonconvergence :
    (∀ (relax : RelaxOracle) (maxIter : ℕ) (tol : ℚ) (s : StructureModel)
        (e : ℚ) (i : ℕ),
      relax s maxIter tol = RelaxOutcome.done e false i →
      evaluate relax maxIter tol s = Except.ok (e, false)) ∧
    (∀ (relax : RelaxOracle) (maxIter : ℕ) (tol : ℚ) (s : StructureModel),
      evaluate relax maxIter tol s = Except.error GAError.evaluationFailure ↔
        relax s maxIter tol = RelaxOutcome.reject) ∧
    (∀ (cfg : GAConfig) (gen : ℕ) (acc : List Candidate × ℕ × ℕ)
        (r : StructureModel × ℚ × Bool),
      (applyChild cfg gen acc (Except.ok r)).1 =
        insert_candidate cfg.similarity_tolerance cfg.population_size acc.1
          { struct := r.1, fitness := r.2.1, converged := r.2.2,
            generation := gen, id := acc.2.2 }) ∧
    (∀ (cfg : GAConfig) (gen : ℕ) (acc : List Candidate × ℕ × ℕ)
        (err : GAError),
      (applyChild cfg gen acc (Except.error err)).1 = acc.1) ∧
    (∀ (penalty : ℚ) (c : Candidate), 0 ≤ penalty → c.converged = false →
      rankFitness penalty c = c.fitness + penalty ∧
        c.fitness ≤ rankFitness penalty c) := by
  refine ⟨?_, ?_, ?_, ?_, ?_⟩
  · intro relax maxIter tol s e i h
    unfold evaluate
    rw [h]
  · intro relax maxIter tol s
    unfold evaluate
    cases hrel : relax s maxIter tol with
    | done e c i => simp
    | reject => simp
  · intro cfg gen acc r
    rfl
  · intro cfg gen acc err
    rfl
  · intro penalty c hp hc
    unfold rankFitness
    rw [hc]
    refine ⟨by simp, ?_⟩
    simp only [Bool.false_eq_true, if_false]
    linarith

/-- Witness for C5 at a concrete non-convergent oracle, a concrete failed
child, and a concrete non-converged candidate. -/
theorem claim_evaluator_nonconvergence_witness :
    evaluate wRelax 10 0 wStruct1 = Except.ok (3, false) ∧
    (applyChild wCfg 0 ([], 0, 0) (Except.error GAError.evaluationFailure)).1 =
      [] ∧
    rankFitness 1 wCandNC = wCandNC.fitness + 1 := by
  obtain ⟨h1, h2, h3, h4, h5⟩ := claim_evaluator_nonconvergence
  exact ⟨h1 wRelax 10 0 wStruct1 3 0 rfl,
    h4 wCfg 0 ([], 0, 0) GAError.evaluationFailure,
    (h5 1 wCandNC (by norm_num) rfl).1⟩

/-- C6: For a run whose fitness oracle always returns `converged=false` and
never rejects, every `evolve()` call completes, the run progresses through
`max_generations` generations, and the controller terminates `Exhausted`,
never entering `Failed`. -/
theorem claim_run_exhausts (cfg : GAConfig) (relax : RelaxOracle)
    (st : RunState)
    (hO : ∀ s n t, ∃ e i, relax s n t = RelaxOutcome.done e false i)
    (hpop : st.pop ≠ []) (hf : st.lastFailures = 0)
    (hgen : st.gen = 0) (hstag : st.stagnation = 0)
    (hK : cfg.max_generations < cfg.stagnation_generations) :
    (∃ st2, runLoop cfg relax cfg.max_generations st =
        (RunStatus.Exhausted, st2) ∧ st2.gen = cfg.max_generations) ∧
    ∀ k, statusOf cfg ((fun s => evolve cfg relax s none)^[k] st) ≠
      RunStatus.Failed := by
  constructor
  · exact runLoop_exhausts cfg relax hO hK cfg.max_generations st hpop
      (by omega) (by omega) (by omega) (by omega)
  · intro k
    obtain ⟨h1, h2⟩ := evolveIter_invariant cfg relax hO k st hpop (by omega)
    exact statusOf_not_failed cfg _ h2

/-- Witness for C6 at a concrete always-non-convergent oracle and a freshly
initialized one-candidate run. -/
theorem claim_run_exhausts_witness :
    (∃ st2, runLoop wCfg wRelax wCfg.max_generations wSt =
        (RunStatus.Exhausted, st2) ∧ st2.gen = wCfg.max_generations) ∧
    ∀ k, statusOf wCfg ((fun s => evolve wCfg wRelax s none)^[k] wSt) ≠
      RunStatus.Failed :=
  claim_run_exhausts wCfg wRelax wSt (fun s n t => ⟨3, 0, rfl⟩)
    (by decide) rfl rfl rfl (by decide)

/-- C7: Within one evolutionary run, the generation counter is incremented by
exactly one per `evolve()` call, never decremented and never reset: after any
sequence of calls it equals its initial value plus the number of calls (hence
`n` after `n` calls on a freshly initialized run). -/
theorem claim_generation_counter (cfg : GAConfig) (relax : RelaxOracle)
    (nums : List (Option ℕ)) (st : RunState) :
    (applyEvolves cfg relax nums st).gen = st.gen + nums.length :=
  applyEvolves_gen cfg relax nums st

/-- C8: When species-count reconciliation cannot reach the target composition
within the bounded number of corrective attempts, `crossover` returns a
mutation of one parent instead of raising: it always returns `ok`, so a
`CompositionMismatch` is recovered locally and never surfaced. -/
theorem claim_crossover_fallback (target : List ℕ) (A B : StructureModel)
    (seed : ℕ) :
    (∃ s, crossover target A B seed = Except.ok s) ∧
      (tryCrossover target A B seed = none →
        crossover target A B seed = Except.ok (mutate A seed)) :=
  ⟨crossover_never_errors target A B seed,
    fun h => crossover_fallback target A B seed h⟩

/-- Witness for C8: a concrete crossover whose reconciliation runs out of
corrective attempts and which therefore returns a mutation of parent A. -/
theorem claim_crossover_fallback_witness :
    crossover (List.replicate 10 0) wEmpty wEmpty 0 =
      Except.ok (mutate wEmpty 0) ∧
    ∃ s, crossover (List.replicate 10 0) wEmpty wEmpty 0 = Except.ok s := by
  have h := claim_crossover_fallback (List.replicate 10 0) wEmpty wEmpty 0
  exact ⟨h.2 (by decide), h.1⟩

/-- C9: Every structure returned by `RandomStructureGenerator.generate`
satisfies the per-species-pair minimum interatomic distance; and when every
attempt within the bounded budget is invalid, `generate` fails with
`GenerationError` instead of looping indefinitely. -/
theorem claim_generator_valid :
    (∀ (minSq : ℕ → ℕ → ℚ) (speciesList : List ℕ) (bound : ℚ)
        (fuel seed : ℕ) (s : StructureModel),
      RandomStructureGenerator.generate minSq speciesList bound fuel seed =
        Except.ok s → isPhysicallyValid minSq s = true) ∧
    (∀ (minSq : ℕ → ℕ → ℚ) (speciesList : List ℕ) (bound : ℚ)
        (fuel seed : ℕ),
      (∀ k, k < fuel → isPhysicallyValid minSq
        (proposeStructure speciesList bound (rngNext^[k] seed)) = false) →
      RandomStructureGenerator.generate minSq speciesList bound fuel seed =
        Except.error GAError.generationError) :=
  ⟨fun m sl b fuel seed s h => generate_ok_valid m sl b fuel seed s h,
    fun m sl b fuel seed h => generate_exhausts m sl b fuel seed h⟩

unseal Rat.add Rat.mul Rat.sub Rat.inv in
/-- Witness for C9: a concrete successful generation whose output is valid,
and a concrete over-constrained generation that fails with
`GenerationError`. -/
theorem claim_generator_valid_witness :
    isPhysicallyValid wMinZero wGenStruct = true ∧
    RandomStructureGenerator.generate wMinBig [0, 0] 1 2 0 =
      Except.error GAError.generationError := by
  have h := claim_generator_valid
  exact ⟨h.1 wMinZero [5] 1 1 0 wGenStruct rfl,
    h.2 wMinBig [0, 0] 1 2 0 (by decide)⟩

/-- C10: The `num_offsprings` parameter of `evolve` is optional: a call with
no argument behaves identically to a call passing the configured default
offspring count. -/
theorem claim_evolve_default (cfg : GAConfig) (relax : RelaxOracle)
    (st : RunState) :
    evolve cfg relax st none = evolve cfg relax st (some cfg.num_offsprings) :=
  rfl

end Oganesson
